import Mathlib

/-!
Verification of the STM line-scan acquisition protocol.

Shallow embedding of the firmware command handlers in `code/stmV2serial.py`
(`cmd_START`, `cmd_LINE`, `cmd_POINT`, `cmd_BIAS`, `cmd_STATUS`, `handle_line`,
`lin_code`, `clamp_u16`, `set_bias`, `parse_kv`) and of the host-side decoder
and scan-sequencing consumer in `code/GUIserial.py` (`_parse_header`,
`_parse_csv_floats`, `_poll_device`, `toggle_scan`).

Conventions of the embedding:
  - Python `int` is `Int`; Python `//` (floor division) is `Int.fdiv`;
    Python `%` and `x & 0xFFFF` (mask of a possibly negative int, which in
    Python equals the nonnegative remainder) are `Int.emod` (`%` on `Int`).
  - Python floats are modelled as exact rationals `ℚ`: the claims under
    verification concern counts, ordering and control flow, never rounding
    of binary floating point.
  - Physical ADC readings are abstracted by an environment: the height read
    during a line sweep is a function of the X and Y DAC codes currently
    set (the surface is static), and idle POINT samples are a stream.
  - A Python exception escaping a command handler is `Except.error`; in the
    source every raising operation (`int(...)` argument parsing) happens
    before any state mutation, so the error carries no partial mutation.
  - Printing is modelled structurally: each `print(...)` of the firmware is
    one `Output` value (header lines carry their fields, a CSV line carries
    its list of samples).
-/

namespace STM

/-! ### Python string primitives (modelled on `List Char`) -/

/-- Python `str.strip()` (whitespace at both ends; the protocol is ASCII). -/
def pyStrip (s : String) : String :=
  String.mk (((s.data.dropWhile Char.isWhitespace).reverse.dropWhile Char.isWhitespace).reverse)

/-- Python `str.upper()` restricted to ASCII letters (protocol tokens are ASCII). -/
def pyUpper (s : String) : String :=
  String.mk (s.data.map Char.toUpper)

/-- Worker for `pySplitWs`: accumulates the current word (reversed). -/
def wordsAux : List Char → List Char → List String
  | [], acc => if acc.isEmpty then [] else [String.mk acc.reverse]
  | c :: cs, acc =>
    if c.isWhitespace then
      if acc.isEmpty then wordsAux cs [] else String.mk acc.reverse :: wordsAux cs []
    else wordsAux cs (c :: acc)

/-- Python `str.split()` with no separator: split on whitespace runs, no empty tokens. -/
def pySplitWs (s : String) : List String := wordsAux s.data []

/-- Worker for `pySplitChar`. -/
def splitCharAux (sep : Char) : List Char → List Char → List String
  | [], acc => [String.mk acc.reverse]
  | c :: cs, acc =>
    if c = sep then String.mk acc.reverse :: splitCharAux sep cs []
    else splitCharAux sep cs (c :: acc)

/-- Python `str.split(sep)` for a one-character separator (keeps empty tokens). -/
def pySplitChar (sep : Char) (s : String) : List String := splitCharAux sep s.data []

/-- Split a character list at the first occurrence of `sep`;
`none` when `sep` does not occur.  Models Python `sep in p` + `p.split(sep, 1)`. -/
def splitFirst (sep : Char) : List Char → Option (List Char × List Char)
  | [] => none
  | c :: cs =>
    if c = sep then some ([], cs)
    else (splitFirst sep cs).map (fun p => (c :: p.1, p.2))

/-- Numeric value of a nonempty list of ASCII digits; `none` otherwise. -/
def digitsVal : List Char → Option Nat
  | [] => none
  | cs =>
    if cs.all Char.isDigit then
      some (cs.foldl (fun a c => 10 * a + (c.toNat - 48)) 0)
    else none

/-- Python `int(str)` in base 10: optional surrounding whitespace, optional
sign, nonempty digit string.  (Python additionally accepts `_` digit-group
separators and non-ASCII decimal digits; the protocol never produces those.) -/
def pyInt (s : String) : Option Int :=
  match (pyStrip s).data with
  | '+' :: ds => (digitsVal ds).map Int.ofNat
  | '-' :: ds => (digitsVal ds).map (fun n => -(n : Int))
  | ds => (digitsVal ds).map Int.ofNat

/-- Consume a (possibly empty) ASCII digit prefix. -/
def readDigits : List Char → List Char × List Char
  | [] => ([], [])
  | c :: cs =>
    if c.isDigit then
      let r := readDigits cs
      (c :: r.1, r.2)
    else ([], c :: cs)

/-- Value of a digit list read as an integer (empty list is 0). -/
def digitsNat (cs : List Char) : Nat := cs.foldl (fun a c => 10 * a + (c.toNat - 48)) 0

/-- Exponent suffix of a Python float literal: `[eE][+-]?digits`, or end of input. -/
def pyFloatExp : List Char → Option Int
  | [] => some 0
  | c :: cs =>
    if c = 'e' ∨ c = 'E' then
      match cs with
      | '+' :: ds => if ds ≠ [] ∧ ds.all Char.isDigit then some (digitsNat ds : Int) else none
      | '-' :: ds => if ds ≠ [] ∧ ds.all Char.isDigit then some (-(digitsNat ds : Int)) else none
      | ds => if ds ≠ [] ∧ ds.all Char.isDigit then some (digitsNat ds : Int) else none
    else none

/-- Digits of an unsigned Python float literal, as
(integer part, fraction part, fraction length, exponent):
`digits [. digits] [exp]` or `. digits [exp]`.
Kept purely structural so that concrete parses reduce by `rfl`. -/
def pyFloatCore (cs : List Char) : Option (Nat × Nat × Nat × Int) :=
  let ip := readDigits cs
  match ip.2 with
  | '.' :: r2 =>
    let fp := readDigits r2
    if ip.1 = [] ∧ fp.1 = [] then none
    else (pyFloatExp fp.2).map (fun e => (digitsNat ip.1, digitsNat fp.1, fp.1.length, e))
  | r =>
    if ip.1 = [] then none
    else (pyFloatExp r).map (fun e => (digitsNat ip.1, 0, 0, e))

/-- The rational value of the parts produced by `pyFloatCore`. -/
def pyFloatVal (p : Nat × Nat × Nat × Int) : ℚ :=
  let m : ℚ := (p.1 : ℚ) + (p.2.1 : ℚ) / ((10 : ℚ) ^ p.2.2.1)
  if 0 ≤ p.2.2.2 then m * (10 : ℚ) ^ p.2.2.2.toNat else m / (10 : ℚ) ^ (-p.2.2.2).toNat

/-- Python `float(str)` for finite decimal literals, as an exact rational.
(`inf`/`nan` literals and `_` separators are accepted by Python but never
produced by the firmware CSV encoder, and are not modelled.) -/
def pyFloat (s : String) : Option ℚ :=
  match (pyStrip s).data with
  | '+' :: cs => (pyFloatCore cs).map pyFloatVal
  | '-' :: cs => (pyFloatCore cs).map (fun p => -(pyFloatVal p))
  | cs => (pyFloatCore cs).map pyFloatVal

/-! ### UTF-8 decoding

`bytes.decode("utf-8", errors="replace")` never fails: every invalid maximal
subpart becomes U+FFFD.  `bytes.decode("utf-8")` (strict, used by
`_parse_csv_floats`) fails on any invalid sequence. -/

/-- The Unicode replacement character U+FFFD. -/
def replacementChar : Char := Char.ofNat 0xFFFD

/-- Decode one UTF-8 sequence whose first byte is `b` and whose continuation
bytes come from `rest`; `none` if no valid complete sequence starts here. -/
def utf8Step (b : Nat) (rest : List Nat) : Option (Char × List Nat) :=
  if b < 0x80 then some (Char.ofNat b, rest)
  else if 0xC2 ≤ b ∧ b ≤ 0xDF then
    match rest with
    | c1 :: r =>
      if 0x80 ≤ c1 ∧ c1 ≤ 0xBF then some (Char.ofNat ((b - 0xC0) * 64 + (c1 - 0x80)), r)
      else none
    | [] => none
  else if 0xE0 ≤ b ∧ b ≤ 0xEF then
    match rest with
    | c1 :: c2 :: r =>
      let lo1 := if b = 0xE0 then 0xA0 else 0x80
      let hi1 := if b = 0xED then 0x9F else 0xBF
      if (lo1 ≤ c1 ∧ c1 ≤ hi1) ∧ (0x80 ≤ c2 ∧ c2 ≤ 0xBF) then
        some (Char.ofNat ((b - 0xE0) * 4096 + (c1 - 0x80) * 64 + (c2 - 0x80)), r)
      else none
    | _ => none
  else if 0xF0 ≤ b ∧ b ≤ 0xF4 then
    match rest with
    | c1 :: c2 :: c3 :: r =>
      let lo1 := if b = 0xF0 then 0x90 else 0x80
      let hi1 := if b = 0xF4 then 0x8F else 0xBF
      if (lo1 ≤ c1 ∧ c1 ≤ hi1) ∧ (0x80 ≤ c2 ∧ c2 ≤ 0xBF) ∧ (0x80 ≤ c3 ∧ c3 ≤ 0xBF) then
        some (Char.ofNat ((b - 0xF0) * 262144 + (c1 - 0x80) * 4096 + (c2 - 0x80) * 64 + (c3 - 0x80)), r)
      else none
    | _ => none
  else none

/-- Length of the valid continuation prefix following an invalid start
(the "maximal subpart" that one U+FFFD replaces, beyond the first byte). -/
def utf8FailSkip (b : Nat) (rest : List Nat) : Nat :=
  let cont1ok : Nat → Prop := fun c =>
    (if b = 0xE0 then 0xA0 else if b = 0xF0 then 0x90 else 0x80) ≤ c ∧
    c ≤ (if b = 0xED then 0x9F else if b = 0xF4 then 0x8F else 0xBF)
  if 0xE0 ≤ b ∧ b ≤ 0xEF then
    match rest with
    | c1 :: _ => if cont1ok c1 then 1 else 0
    | [] => 0
  else if 0xF0 ≤ b ∧ b ≤ 0xF4 then
    match rest with
    | c1 :: c2 :: _ =>
      if cont1ok c1 then (if 0x80 ≤ c2 ∧ c2 ≤ 0xBF then 2 else 1) else 0
    | c1 :: [] => if cont1ok c1 then 1 else 0
    | [] => 0
  else 0

/-- Fueled worker for replacing decode (fuel bounds the number of sequences;
each step consumes at least the first byte, so `bs.length` fuel suffices). -/
def utf8ReplaceAux : Nat → List Nat → List Char
  | 0, _ => []
  | _, [] => []
  | fuel + 1, b :: rest =>
    match utf8Step b rest with
    | some (c, r) => c :: utf8ReplaceAux fuel r
    | none => replacementChar :: utf8ReplaceAux fuel (rest.drop (utf8FailSkip b rest))

/-- Python `bytes.decode("utf-8", errors="replace")`: total. -/
def utf8DecodeReplace (bs : List Nat) : String :=
  String.mk (utf8ReplaceAux bs.length bs)

/-- Fueled worker for strict decode. -/
def utf8StrictAux : Nat → List Nat → Option (List Char)
  | _, [] => some []
  | 0, _ => none
  | fuel + 1, b :: rest =>
    match utf8Step b rest with
    | some (c, r) => (utf8StrictAux fuel r).map (fun l => c :: l)
    | none => none

/-- Python `bytes.decode("utf-8")` (strict): `none` models `UnicodeDecodeError`. -/
def utf8DecodeStrict (bs : List Nat) : Option String :=
  (utf8StrictAux bs.length bs).map String.mk

/-! ### Device protocol engine (`code/stmV2serial.py`) -/

/-- The firmware's scan/session state: the module globals `frame_N`,
`cur_line_idx`, `cur_dir`, `bias_code`. -/
structure DeviceState where
  frame_N : Int
  cur_line_idx : Int
  cur_dir : Int
  bias_code : Int
deriving DecidableEq, Repr

/-- Initial values of the module globals. -/
def initDevice : DeviceState :=
  { frame_N := 128, cur_line_idx := 0, cur_dir := 1, bias_code := 20000 }

/-- Physical environment abstracted from the DAC/ADC wiring: `height x y` is
the reading `read_height_avg(1)` returns while the X and Y DACs hold codes
`x` and `y` (the surface is static during one sweep); `point k` is the k-th
sample of an idle `POINT` burst. -/
structure Env where
  height : Int → Int → ℚ
  point : Nat → ℚ

/-- One printed reply line, structurally: headers carry their fields and a
CSV payload line carries its sample list. -/
inductive Output where
  | ok (msg : String)
  | err (code : Int) (msg : String)
  | lineOk (N IDX DIR : Int)
  | pointOk (COUNT : Int)
  | csv (ys : List ℚ)
  | statusOk (N IDX DIR BIAS : Int)
deriving DecidableEq, Repr

/-- `clamp_u16(x)`: clamp to `[0, 65535]` (the source's `int(x)` is the
identity on ints). -/
def clamp_u16 (x : Int) : Int :=
  if x < 0 then 0 else if x > 65535 then 65535 else x

/-- `lin_code(pos, N)`: map pixel index to a DAC code.  Python `//` is
floor division, `Int.fdiv`. -/
def lin_code (pos N : Int) : Int :=
  if N ≤ 1 then 0 else clamp_u16 (Int.fdiv (pos * 65535) (N - 1))

/-- `set_bias(code)`: `bias_code = int(code) & 0xFFFF`; on Python ints the
mask equals the nonnegative remainder mod 2^16.  (The DAC write it also
performs is physical output, not session state.) -/
def set_bias (code : Int) (s : DeviceState) : DeviceState :=
  { s with bias_code := code % 65536 }

/-- Key/value pairs in insertion order; a later binding of the same key
shadows an earlier one, like assignment into a Python dict. -/
abbrev KV := List (String × String)

/-- Dict lookup: the last binding of the key wins. -/
def kv_get (kv : KV) (k : String) : Option String :=
  (kv.reverse.find? (fun p => p.1 = k)).map (fun p => p.2)

/-- `parse_kv(parts)` (firmware): for each token containing `=`, split at the
first `=`, strip and upper-case the key, strip the value. -/
def parse_kv (parts : List String) : KV :=
  parts.foldl (fun kv p =>
    match splitFirst '=' p.data with
    | none => kv
    | some (k, v) => kv ++ [(pyUpper (pyStrip (String.mk k)), pyStrip (String.mk v))]) []

/-- `cmd_START(kv)`.  An unparsable `N` raises `ValueError` out of the
handler (before any mutation), modelled as `Except.error`. -/
def cmd_START (kv : KV) (s : DeviceState) : Except String (DeviceState × List Output) :=
  match kv_get kv "N" with
  | none => .ok (s, [.err 10 "START requires N"])
  | some v =>
    match pyInt v with
    | none => .error ("invalid literal for int() with base 10: " ++ v)
    | some n =>
      if n < 2 ∨ n > 4096 then .ok (s, [.err 11 "N out of range"])
      else .ok ({ s with frame_N := n, cur_line_idx := 0, cur_dir := 1 }, [.ok "start-ready"])

/-- `cmd_BIAS(kv)`: its own `try/except` turns an unparsable `CODE` into
`ERR CODE=21` locally (never an escaping exception). -/
def cmd_BIAS (kv : KV) (s : DeviceState) : Except String (DeviceState × List Output) :=
  match kv_get kv "CODE" with
  | none => .ok (s, [.err 20 "BIAS requires CODE"])
  | some v =>
    match pyInt v with
    | none => .ok (s, [.err 21 "BIAS CODE invalid"])
    | some code => .ok (set_bias code s, [.ok "bias-set"])

/-- `cmd_STATUS()`: report state, no mutation. -/
def cmd_STATUS (s : DeviceState) : Except String (DeviceState × List Output) :=
  .ok (s, [.statusOk s.frame_N s.cur_line_idx s.cur_dir s.bias_code])

/-- `cmd_POINT(kv)`: `COUNT` defaults to 200 and is clamped to `[1, 4096]`;
an unparsable `COUNT` raises out of the handler. -/
def cmd_POINT (env : Env) (kv : KV) (s : DeviceState) :
    Except String (DeviceState × List Output) :=
  let v := (kv_get kv "COUNT").getD "200"
  match pyInt v with
  | none => .error ("invalid literal for int() with base 10: " ++ v)
  | some c0 =>
    let cnt := if c0 < 1 then 1 else if c0 > 4096 then 4096 else c0
    .ok (s, [.pointOk cnt, .csv ((List.range cnt.toNat).map env.point)])

/-- The X sweep order of `cmd_LINE`: `range(N)` when the direction is
positive, `range(N-1, -1, -1)` — i.e. the reverse — otherwise. -/
def line_x_order (d : Int) (n : Nat) : List Int :=
  if d > 0 then (List.range n).map Int.ofNat
  else ((List.range n).map Int.ofNat).reverse

/-- `cmd_LINE(kv)`: validate, adopt `N`/`IDX`, choose the zig-zag direction
(even row forward, odd row reverse), position Y, re-assert bias, sweep X in
the chosen order sampling one height per position, then reply with the
`LINE OK` header and one CSV line in acquisition order. -/
def cmd_LINE (env : Env) (kv : KV) (s : DeviceState) :
    Except String (DeviceState × List Output) :=
  match kv_get kv "N", kv_get kv "IDX" with
  | none, _ => .ok (s, [.err 30 "LINE requires N and IDX"])
  | some _, none => .ok (s, [.err 30 "LINE requires N and IDX"])
  | some vN, some vI =>
    match pyInt vN with
    | none => .error ("invalid literal for int() with base 10: " ++ vN)
    | some n =>
      match pyInt vI with
      | none => .error ("invalid literal for int() with base 10: " ++ vI)
      | some idx =>
        if n < 2 ∨ n > 4096 then .ok (s, [.err 31 "N out of range"])
        else if idx < 0 ∨ idx ≥ n then .ok (s, [.err 32 "IDX out of range"])
        else
          let d : Int := if idx % 2 = 0 then 1 else -1
          let y_code := lin_code idx n
          let ys := (line_x_order d n.toNat).map (fun i => env.height (lin_code i n) y_code)
          .ok ({ s with frame_N := n, cur_line_idx := idx, cur_dir := d },
               [.lineOk n idx d, .csv ys])

/-- The dispatch inside `handle_line`'s `try:` block. -/
def dispatch (env : Env) (cmd : String) (kv : KV) (s : DeviceState) :
    Except String (DeviceState × List Output) :=
  if cmd = "START" then cmd_START kv s
  else if cmd = "LINE" then cmd_LINE env kv s
  else if cmd = "POINT" then cmd_POINT env kv s
  else if cmd = "BIAS" then cmd_BIAS kv s
  else if cmd = "STATUS" then cmd_STATUS s
  else .ok (s, [.err 1 "unknown command"])

/-- `handle_line(line)`: tokenize, dispatch, and catch any fault as
`ERR CODE=99` — total by construction.  (In the source every raising
operation precedes the first state mutation of its handler, so the state at
the catch is the entry state.) -/
def handle_line (env : Env) (line : String) (s : DeviceState) : DeviceState × List Output :=
  match pySplitWs (pyStrip line) with
  | [] => (s, [])
  | p0 :: rest =>
    match dispatch env (pyUpper p0) (parse_kv rest) s with
    | .ok r => r
    | .error e => (s, [.err 99 ("exception: " ++ e)])

/-- The serial main loop, restricted to its observable behaviour: each
newline-terminated buffer is fed to `handle_line`; outputs accumulate. -/
def run_lines (env : Env) : List String → DeviceState → DeviceState × List Output
  | [], s => (s, [])
  | l :: ls, s =>
    let r := handle_line env l s
    let r2 := run_lines env ls r.1
    (r2.1, r.2 ++ r2.2)

/-! ### Host frame decoder (`GUIserial.py`, `SerialIO._parse_header` /
`SerialIO._parse_csv_floats`) -/

/-- A parsed reply header on the host side. -/
inductive PyHeader where
  | line (n idx dir : Int)
  | point (count : Int)
  | ok (raw : String)
  | err (raw : String)
  | unknown (raw : String)
deriving DecidableEq, Repr

/-- `_parse_header`'s key/value collection: split at the first `=`,
upper-case the key, keep the value unstripped. -/
def gui_parse_kv (parts : List String) : KV :=
  parts.foldl (fun kv p =>
    match splitFirst '=' p.data with
    | none => kv
    | some (k, v) => kv ++ [(pyUpper (String.mk k), String.mk v)]) []

/-- The tail of `_parse_header`'s `elif` chain once `head` is known not to
select a `LINE OK` / `POINT OK` parse. -/
def header_tail (head txt : String) : Option PyHeader :=
  if head = "OK" then some (.ok txt)
  else if head = "ERR" then some (.err txt)
  else some (.unknown txt)

/-- `SerialIO._parse_header(hline)`: decode with replacement, tokenize, and
classify.  The surrounding `try/except` maps every internal fault
(`parts[1]` on a one-token `LINE`/`POINT` line, `int()` on a malformed
field) to `None`. -/
def parse_header (bs : List Nat) : Option PyHeader :=
  let txt := pyStrip (utf8DecodeReplace bs)
  match pySplitWs txt with
  | [] => none
  | p0 :: rest =>
    let head := pyUpper p0
    let kv := gui_parse_kv rest
    if head = "LINE" then
      match rest with
      | [] => none
      | p1 :: _ =>
        if pyUpper p1 = "OK" then
          match pyInt ((kv_get kv "N").getD "0"), pyInt ((kv_get kv "IDX").getD "0"),
                pyInt ((kv_get kv "DIR").getD "+1") with
          | some n, some idx, some d => some (.line n idx d)
          | _, _, _ => none
        else header_tail head txt
    else if head = "POINT" then
      match rest with
      | [] => none
      | p1 :: _ =>
        if pyUpper p1 = "OK" then
          match pyInt ((kv_get kv "COUNT").getD "0") with
          | some c => some (.point c)
          | none => none
        else header_tail head txt
    else header_tail head txt

/-- The Python list comprehension `[float(t) for t in ... if t]` with the
possibility that some `float(t)` raises: `none` on the first failure. -/
def mapOption (f : α → Option β) : List α → Option (List β)
  | [] => some []
  | x :: xs =>
    match f x with
    | none => none
    | some y => (mapOption f xs).map (fun ys => y :: ys)

/-- The CSV tokens of a decoded payload line: strip, split on `,`, keep
only truthy (non-empty) tokens. -/
def csvTokens (txt : String) : List String :=
  (pySplitChar ',' (pyStrip txt)).filter (fun t => t ≠ "")

/-- `SerialIO._parse_csv_floats(line, expected)`: strict decode, strip,
split on `,`, drop empty tokens, parse each as float; any fault yields
`None`.  The declared count is compared but a mismatch is tolerated
(the source's `pass`), so `expected` does not influence the result. -/
def parse_csv_floats (bs : List Nat) (expected : Option Int) : Option (List ℚ) :=
  match utf8DecodeStrict bs with
  | none => none
  | some txt =>
    match mapOption pyFloat (csvTokens txt) with
    | none => none
    | some qs => some qs

/-! ### Host scan-sequencing consumer (`GUIserial.py`, `STMApp._poll_device`
and `toggle_scan`) -/

/-- A typed frame handed from the reader thread to the consumer:
`("line", y, idx, dir)` or `("point", y)`. -/
inductive Frame where
  | line (y : List ℚ) (idx : Int) (dir : Int)
  | point (y : List ℚ)
deriving DecidableEq, Repr

/-- A command the consumer enqueues for the device (`_send` of the f-string
shown in `_request_start` / `_request_next_line` / `_request_point`). -/
inductive Cmd where
  | start (n : Int)
  | bias (code : Int)
  | line (n idx : Int)
  | point (count : Int)
deriving DecidableEq, Repr

/-- Observable side effects of one consumer tick, in program order.
`updateTopo` records a call of `update_topography_line` with its arguments
(its internal resampling and row write are rendering, out of scope);
`appendTS` records `append_time_series`; `setProgress` the progress-bar
value; `resetTopo`/`clearTS` the scan-start resets; `send` an enqueued
command. -/
inductive HAct where
  | updateTopo (y : List ℚ) (idx : Int) (dir : Int)
  | appendTS (y : List ℚ)
  | setProgress (v : ℚ)
  | resetTopo (n : Int)
  | clearTS
  | send (c : Cmd)
deriving DecidableEq, Repr

/-- The consumer-owned state touched by `_poll_device`/`toggle_scan`:
`scanning`, `line_idx`, `direction`, `linear_size`, and the side length of
the allocated topography buffer (`None` before the first scan). -/
structure HostState where
  scanning : Bool
  line_idx : Int
  direction : Int
  linear_size : Int
  topo_size : Option Int
deriving DecidableEq, Repr

/-- `toggle_scan()`: start side resets progress/row/direction, reallocates
the topography buffer, clears the rolling buffer and sends
`START`, `BIAS CODE=20000`, then `LINE ... IDX=0`; stop side flips to idle
and resets the progress bar, sending nothing. -/
def toggle_scan (s : HostState) : HostState × List HAct :=
  if ¬ s.scanning then
    ({ s with scanning := true, line_idx := 0, direction := 1,
              topo_size := some s.linear_size },
     [.setProgress 0, .resetTopo s.linear_size, .clearTS,
      .send (.start s.linear_size), .send (.bias 20000),
      .send (.line s.linear_size 0)])
  else
    ({ s with scanning := false }, [.setProgress 0])

/-- The queue-draining loop of `_poll_device`: read frames in FIFO order
until empty, remembering only the last of each kind. -/
def drain (frames : List Frame) :
    Option (List ℚ × Int × Int) × Option (List ℚ) :=
  frames.foldl (fun acc f =>
    match f with
    | .line y i d => (some (y, i, d), acc.2)
    | .point y => (acc.1, some y)) (none, none)

/-- The guarded `update_topography_line` call of the line branch:
only when a topography buffer exists and `0 <= idx < topo.shape[0]`. -/
def topo_acts (s : HostState) (y : List ℚ) (idx dir : Int) : List HAct :=
  match s.topo_size with
  | some n => if 0 ≤ idx ∧ idx < n then [.updateTopo y idx dir] else []
  | none => []

/-- `STMApp._poll_device()` as a function of the frames drained this tick:
process the last line frame if any (topography write, time series, progress,
then — when scanning — either request line `idx+1` or toggle the scan off);
otherwise process the last point frame only when idle.  (The trailing
re-scheduling of the timer is the loop itself, not modelled.) -/
def poll_device (frames : List Frame) (s : HostState) : HostState × List HAct :=
  match drain frames with
  | (some (y, idx, dir), _) =>
    let base := topo_acts s y idx dir ++
      [.appendTS y, .setProgress (100 * ((idx : ℚ) + 1) / (s.linear_size : ℚ))]
    if s.scanning then
      if idx + 1 < s.linear_size then
        ({ s with direction := -s.direction, line_idx := idx + 1 },
         base ++ [.send (.line s.linear_size (idx + 1))])
      else
        let t := toggle_scan s
        (t.1, base ++ t.2)
    else (s, base)
  | (none, some y) => if ¬ s.scanning then (s, [.appendTS y]) else (s, [])
  | (none, none) => (s, [])

/-- The commands enqueued among a tick's effects. -/
def sentCmds (acts : List HAct) : List Cmd :=
  acts.filterMap (fun a => match a with | .send c => some c | _ => none)

/-- The last line frame of a queue, as the drain loop keeps it. -/
def lastLineFrame (frames : List Frame) : Option (List ℚ × Int × Int) :=
  (frames.filterMap (fun f =>
    match f with | .line y i d => some (y, i, d) | .point _ => none)).getLast?

/-- The last point frame of a queue, as the drain loop keeps it. -/
def lastPointFrame (frames : List Frame) : Option (List ℚ) :=
  (frames.filterMap (fun f =>
    match f with | .point y => some y | .line _ _ _ => none)).getLast?

/-- Spec-side position mapping, modelled from the spec's words for
comparison with the source's `lin_code`:
`round(pos * 65535 / (N-1))`, clamped to `[0, 65535]`, with `N <= 1`
degenerate to `0`. -/
def lin_code_round (pos N : Int) : Int :=
  if N ≤ 1 then 0 else clamp_u16 (round (((pos * 65535 : Int) : ℚ) / ((N : ℚ) - 1)))

/-! ### Basic facts about `clamp_u16` and `lin_code` -/

theorem clamp_u16_nonneg (x : Int) : 0 ≤ clamp_u16 x := by
  unfold clamp_u16; split_ifs <;> omega

theorem clamp_u16_le (x : Int) : clamp_u16 x ≤ 65535 := by
  unfold clamp_u16; split_ifs <;> omega

theorem clamp_u16_mono {x y : Int} (h : x ≤ y) : clamp_u16 x ≤ clamp_u16 y := by
  unfold clamp_u16; split_ifs <;> omega

theorem clamp_u16_eq_self {x : Int} (h1 : 0 ≤ x) (h2 : x ≤ 65535) : clamp_u16 x = x := by
  unfold clamp_u16; split_ifs <;> omega

/-- Cast bookkeeping: for `2 ≤ N` the rational `(N:ℚ) - 1` is the cast of
the natural number `(N-1).toNat`. -/
theorem cast_pred_toNat {N : Int} (h : 2 ≤ N) : (((N - 1).toNat : ℕ) : ℚ) = (N : ℚ) - 1 := by
  have h1 : (((N - 1).toNat : ℕ) : ℤ) = N - 1 := Int.toNat_of_nonneg (by omega)
  calc (((N - 1).toNat : ℕ) : ℚ) = ((((N - 1).toNat : ℕ) : ℤ) : ℚ) := by push_cast; ring
    _ = ((N - 1 : ℤ) : ℚ) := by rw [h1]
    _ = (N : ℚ) - 1 := by push_cast; ring

/-- Python's floor division agrees with the rational floor here. -/
theorem fdiv_eq_rat_floor {N : Int} (h : 2 ≤ N) (a : Int) :
    Int.fdiv a (N - 1) = ⌊((a : Int) : ℚ) / ((N : ℚ) - 1)⌋ := by
  have h1 : (((N - 1).toNat : ℕ) : ℤ) = N - 1 := Int.toNat_of_nonneg (by omega)
  rw [Int.fdiv_eq_ediv _ (by omega), ← cast_pred_toNat h, Rat.floor_intCast_div_natCast, h1]

/-! ### C4 — `lin_code` uses floor, not round -/

/-- C4 counterexample: at `pos=1, N=3` the device computes
`(1*65535) // 2 = 32767`, while the spec's `round(65535/2) = 32768`. -/
theorem lin_code_not_round : lin_code 1 3 = 32767 ∧ lin_code_round 1 3 = 32768 ∧
    lin_code 1 3 ≠ lin_code_round 1 3 := by
  have h1 : lin_code 1 3 = 32767 := by decide
  have h2 : lin_code_round 1 3 = 32768 := by
    unfold lin_code_round
    rw [if_neg (by omega)]
    have hq : (((1 * 65535 : Int) : ℚ) / (((3 : Int) : ℚ) - 1)) = 65535 / 2 := by norm_num
    rw [hq, round_eq]
    norm_num [clamp_u16]
  exact ⟨h1, h2, by omega⟩

/-- C4 (amended): for every integer `pos` and `N`, `linCode(pos, N)` equals
`floor(pos * 65535 / (N-1))` clamped to `[0, 65535]`, and `0` for
degenerate `N ≤ 1`. -/
theorem lin_code_eq_floor_clamped (pos N : Int) :
    lin_code pos N =
      if N ≤ 1 then 0 else clamp_u16 ⌊((pos * 65535 : Int) : ℚ) / ((N : ℚ) - 1)⌋ := by
  unfold lin_code
  split
  · rfl
  · rename_i h
    rw [fdiv_eq_rat_floor (by omega)]

/-! ### C5 — range, monotonicity and endpoints of `lin_code` -/

/-- C5: for `N ∈ [2, 4096]` and `pos ∈ [0, N)`, `linCode(pos, N)` lies in
`[0, 65535]`, is monotone non-decreasing in `pos`, and hits `0` at `pos=0`
and `65535` at `pos=N-1`. -/
theorem lin_code_range_monotone_endpoints (N pos : Int)
    (hN2 : 2 ≤ N) (hN4096 : N ≤ 4096) (hp0 : 0 ≤ pos) (hpN : pos < N) :
    (0 ≤ lin_code pos N ∧ lin_code pos N ≤ 65535) ∧
    (∀ pos2, pos ≤ pos2 → pos2 < N → lin_code pos N ≤ lin_code pos2 N) ∧
    lin_code 0 N = 0 ∧ lin_code (N - 1) N = 65535 := by
  have hne : ¬ N ≤ 1 := by omega
  refine ⟨⟨?_, ?_⟩, ?_, ?_, ?_⟩
  · unfold lin_code; rw [if_neg hne]; exact clamp_u16_nonneg _
  · unfold lin_code; rw [if_neg hne]; exact clamp_u16_le _
  · intro pos2 h12 _
    unfold lin_code
    rw [if_neg hne, if_neg hne]
    refine clamp_u16_mono ?_
    rw [Int.fdiv_eq_ediv _ (by omega), Int.fdiv_eq_ediv _ (by omega)]
    exact Int.ediv_le_ediv (by omega) (mul_le_mul_of_nonneg_right h12 (by norm_num))
  · unfold lin_code
    rw [if_neg hne]
    rw [show ((0 : Int) * 65535) = 0 by ring, Int.zero_fdiv]
    exact clamp_u16_eq_self le_rfl (by norm_num)
  · unfold lin_code
    rw [if_neg hne, Int.fdiv_eq_ediv _ (by omega), Int.mul_ediv_cancel_left 65535 (by omega)]
    exact clamp_u16_eq_self (by norm_num) le_rfl

/-- C5 witness at `N = 4`, `pos = 1`, `pos2 = 2`. -/
theorem lin_code_range_monotone_endpoints_witness :
    ((0 ≤ lin_code 1 4 ∧ lin_code 1 4 ≤ 65535) ∧
     lin_code 1 4 ≤ lin_code 2 4 ∧ lin_code 0 4 = 0 ∧ lin_code 3 4 = 65535) := by
  have h := lin_code_range_monotone_endpoints 4 1 (by norm_num) (by norm_num)
    (by norm_num) (by norm_num)
  exact ⟨h.1, h.2.1 2 (by norm_num) (by norm_num), h.2.2.1, by simpa using h.2.2.2⟩

/-- A concrete environment for witnesses: the height reading is the X code
itself, the idle stream is the sample index. -/
def env0 : Env := { height := fun x _ => (x : ℚ), point := fun k => (k : ℚ) }

/-! ### C1 — the device chooses the zig-zag direction and sweeps X in it -/

/-- Evaluation of `cmd_LINE` on valid arguments (shared helper). -/
theorem cmd_LINE_valid_eq (env : Env) (kv : KV) (s : DeviceState)
    (vN vI : String) (n i : Int)
    (hN : kv_get kv "N" = some vN) (hI : kv_get kv "IDX" = some vI)
    (hpN : pyInt vN = some n) (hpI : pyInt vI = some i)
    (h2 : 2 ≤ n) (h4096 : n ≤ 4096) (hi0 : 0 ≤ i) (hin : i < n) :
    cmd_LINE env kv s =
      .ok ({ s with frame_N := n, cur_line_idx := i,
                    cur_dir := if i % 2 = 0 then 1 else -1 },
           [.lineOk n i (if i % 2 = 0 then 1 else -1),
            .csv ((line_x_order (if i % 2 = 0 then 1 else -1) n.toNat).map
              (fun j => env.height (lin_code j n) (lin_code i n)))]) := by
  simp only [cmd_LINE, hN, hI, hpN, hpI]
  rw [if_neg (by omega), if_neg (by omega)]

/-- C1: for every valid `LINE N=n IDX=i` (`n ∈ [2,4096]`, `i ∈ [0,n)`),
`cmd_LINE` sets the direction to `+1` for even `i` and `-1` for odd `i`
(computed from `IDX` alone — no host input is consulted), and sweeps the X
positions in that order (`line_x_order`). -/
theorem cmd_LINE_direction_and_sweep (env : Env) (kv : KV) (s : DeviceState)
    (vN vI : String) (n i : Int)
    (hN : kv_get kv "N" = some vN) (hI : kv_get kv "IDX" = some vI)
    (hpN : pyInt vN = some n) (hpI : pyInt vI = some i)
    (h2 : 2 ≤ n) (h4096 : n ≤ 4096) (hi0 : 0 ≤ i) (hin : i < n) :
    cmd_LINE env kv s =
      .ok ({ s with frame_N := n, cur_line_idx := i,
                    cur_dir := if i % 2 = 0 then 1 else -1 },
           [.lineOk n i (if i % 2 = 0 then 1 else -1),
            .csv ((line_x_order (if i % 2 = 0 then 1 else -1) n.toNat).map
              (fun j => env.height (lin_code j n) (lin_code i n)))]) :=
  cmd_LINE_valid_eq env kv s vN vI n i hN hI hpN hpI h2 h4096 hi0 hin

/-- C1 witness at `n = 4`, `i = 1` (odd row: direction `-1`). -/
theorem cmd_LINE_direction_and_sweep_witness :
    cmd_LINE env0 [("N", "4"), ("IDX", "1")] initDevice =
      .ok ({ initDevice with frame_N := 4, cur_line_idx := 1,
                             cur_dir := if (1 : Int) % 2 = 0 then 1 else -1 },
           [.lineOk 4 1 (if (1 : Int) % 2 = 0 then 1 else -1),
            .csv ((line_x_order (if (1 : Int) % 2 = 0 then 1 else -1) (4 : Int).toNat).map
              (fun j => env0.height (lin_code j 4) (lin_code 1 4)))]) :=
  cmd_LINE_direction_and_sweep env0 _ initDevice "4" "1" 4 1 rfl rfl rfl rfl
    (by norm_num) (by norm_num) (by norm_num) (by norm_num)

/-! ### C2 — the `LINE OK` reply echoes the state actually used, with one
CSV payload of exactly `n` samples in acquisition order -/

/-- C2: the reply is the header `LINE OK` carrying exactly the `N`, `IDX`,
`DIR` adopted into the session state, followed by exactly one CSV line of
`n` samples; for `DIR = -1` the sample sequence is the reverse of the
forward-sweep sequence (and for `DIR = +1` it is the forward sequence). -/
theorem cmd_LINE_reply_framing (env : Env) (kv : KV) (s : DeviceState)
    (vN vI : String) (n i : Int)
    (hN : kv_get kv "N" = some vN) (hI : kv_get kv "IDX" = some vI)
    (hpN : pyInt vN = some n) (hpI : pyInt vI = some i)
    (h2 : 2 ≤ n) (h4096 : n ≤ 4096) (hi0 : 0 ≤ i) (hin : i < n) :
    ∃ s2 ys,
      cmd_LINE env kv s = .ok (s2, [.lineOk s2.frame_N s2.cur_line_idx s2.cur_dir, .csv ys]) ∧
      s2.frame_N = n ∧ s2.cur_line_idx = i ∧
      ys.length = n.toNat ∧
      (s2.cur_dir = -1 → ys = ((List.range n.toNat).map
          (fun j => env.height (lin_code (Int.ofNat j) n) (lin_code i n))).reverse) ∧
      (s2.cur_dir = 1 → ys = (List.range n.toNat).map
          (fun j => env.height (lin_code (Int.ofNat j) n) (lin_code i n))) := by
  refine ⟨{ s with frame_N := n, cur_line_idx := i,
                   cur_dir := if i % 2 = 0 then 1 else -1 },
          (line_x_order (if i % 2 = 0 then 1 else -1) n.toNat).map
            (fun j => env.height (lin_code j n) (lin_code i n)), ?_, rfl, rfl, ?_, ?_, ?_⟩
  · exact cmd_LINE_valid_eq env kv s vN vI n i hN hI hpN hpI h2 h4096 hi0 hin
  · simp [line_x_order]
    split <;> simp
  · intro hd
    by_cases hpar : i % 2 = 0
    · rw [if_pos hpar] at hd; exact absurd hd (by norm_num)
    · simp only [line_x_order, if_neg hpar, show ¬ ((-1 : Int) > 0) by norm_num,
        if_false, List.map_reverse, List.map_map]
      rfl
  · intro hd
    by_cases hpar : i % 2 = 0
    · simp only [line_x_order, if_pos hpar, show ((1 : Int) > 0) by norm_num, if_true,
        List.map_map]
      rfl
    · rw [if_neg hpar] at hd; exact absurd hd (by norm_num)

/-- C2 witness at `n = 2`, `i = 1`. -/
theorem cmd_LINE_reply_framing_witness :
    ∃ s2 ys,
      cmd_LINE env0 [("N", "2"), ("IDX", "1")] initDevice =
        .ok (s2, [.lineOk s2.frame_N s2.cur_line_idx s2.cur_dir, .csv ys]) ∧
      s2.frame_N = 2 ∧ s2.cur_line_idx = 1 ∧
      ys.length = (2 : Int).toNat ∧
      (s2.cur_dir = -1 → ys = ((List.range (2 : Int).toNat).map
          (fun j => env0.height (lin_code (Int.ofNat j) 2) (lin_code 1 2))).reverse) ∧
      (s2.cur_dir = 1 → ys = (List.range (2 : Int).toNat).map
          (fun j => env0.height (lin_code (Int.ofNat j) 2) (lin_code 1 2))) :=
  cmd_LINE_reply_framing env0 _ initDevice "2" "1" 2 1 rfl rfl rfl rfl
    (by norm_num) (by norm_num) (by norm_num) (by norm_num)

/-! ### C6 — `START` validation and state effect -/

/-- C6: `START` without `N` replies `ERR CODE=10` leaving the whole session
state unchanged; an integer `N ∉ [2,4096]` replies `ERR CODE=11` leaving it
unchanged; an integer `N ∈ [2,4096]` resets `cur_line_idx = 0`,
`cur_dir = +1`, adopts `frame_N = N`, keeps `bias_code`, and replies `OK`. -/
theorem cmd_START_validation :
    (∀ (kv : KV) (s : DeviceState), kv_get kv "N" = none →
       cmd_START kv s = .ok (s, [.err 10 "START requires N"])) ∧
    (∀ (kv : KV) (s : DeviceState) (v : String) (n : Int),
       kv_get kv "N" = some v → pyInt v = some n → (n < 2 ∨ n > 4096) →
       cmd_START kv s = .ok (s, [.err 11 "N out of range"])) ∧
    (∀ (kv : KV) (s : DeviceState) (v : String) (n : Int),
       kv_get kv "N" = some v → pyInt v = some n → 2 ≤ n → n ≤ 4096 →
       cmd_START kv s =
         .ok ({ frame_N := n, cur_line_idx := 0, cur_dir := 1, bias_code := s.bias_code },
              [.ok "start-ready"])) := by
  refine ⟨?_, ?_, ?_⟩
  · intro kv s h
    simp only [cmd_START, h]
  · intro kv s v n hv hn hrange
    simp only [cmd_START, hv, hn]
    rw [if_pos hrange]
  · intro kv s v n hv hn h2 h4096
    simp only [cmd_START, hv, hn]
    rw [if_neg (by omega)]

/-- C6 witness: the boundary quartet `N = 1, 5000, 2, 4096` plus a missing
`N`, all on the initial state. -/
theorem cmd_START_validation_witness :
    cmd_START [] initDevice = .ok (initDevice, [.err 10 "START requires N"]) ∧
    cmd_START [("N", "1")] initDevice = .ok (initDevice, [.err 11 "N out of range"]) ∧
    cmd_START [("N", "5000")] initDevice = .ok (initDevice, [.err 11 "N out of range"]) ∧
    cmd_START [("N", "2")] initDevice =
      .ok ({ frame_N := 2, cur_line_idx := 0, cur_dir := 1,
             bias_code := initDevice.bias_code }, [.ok "start-ready"]) ∧
    cmd_START [("N", "4096")] initDevice =
      .ok ({ frame_N := 4096, cur_line_idx := 0, cur_dir := 1,
             bias_code := initDevice.bias_code }, [.ok "start-ready"]) :=
  ⟨cmd_START_validation.1 [] initDevice rfl,
   cmd_START_validation.2.1 _ initDevice "1" 1 rfl rfl (Or.inl (by norm_num)),
   cmd_START_validation.2.1 _ initDevice "5000" 5000 rfl rfl (Or.inr (by norm_num)),
   cmd_START_validation.2.2 _ initDevice "2" 2 rfl rfl (by norm_num) (by norm_num),
   cmd_START_validation.2.2 _ initDevice "4096" 4096 rfl rfl (by norm_num) (by norm_num)⟩

/-! ### C10 — `BIAS` wraps any integer code into `[0, 65535]` -/

/-- Each successful `cmd_START` leaves `bias_code` untouched. -/
theorem cmd_START_bias (kv : KV) (s s2 : DeviceState) (outs : List Output)
    (h : cmd_START kv s = .ok (s2, outs)) : s2.bias_code = s.bias_code := by
  unfold cmd_START at h
  repeat' split at h
  all_goals (try exact Except.noConfusion h)
  all_goals (injection h with h; injection h with hs ho; subst hs; rfl)

/-- Each successful `cmd_LINE` leaves `bias_code` untouched (the bias DAC is
re-asserted physically, but the stored code is unchanged). -/
theorem cmd_LINE_bias (env : Env) (kv : KV) (s s2 : DeviceState) (outs : List Output)
    (h : cmd_LINE env kv s = .ok (s2, outs)) : s2.bias_code = s.bias_code := by
  unfold cmd_LINE at h
  repeat' split at h
  all_goals (try exact Except.noConfusion h)
  all_goals (injection h with h; injection h with hs ho; subst hs; rfl)

/-- `cmd_POINT` leaves the session state untouched. -/
theorem cmd_POINT_state (env : Env) (kv : KV) (s s2 : DeviceState) (outs : List Output)
    (h : cmd_POINT env kv s = .ok (s2, outs)) : s2 = s := by
  unfold cmd_POINT at h
  simp only [] at h
  rcases hp : pyInt ((kv_get kv "COUNT").getD "200") with _ | c0 <;> rw [hp] at h
  · exact Except.noConfusion h
  · injection h with h; injection h with hs ho; exact hs.symm

/-- After a successful `cmd_BIAS` the bias code is either untouched (error
replies) or freshly wrapped into `[0, 65535]`. -/
theorem cmd_BIAS_bias (kv : KV) (s s2 : DeviceState) (outs : List Output)
    (h : cmd_BIAS kv s = .ok (s2, outs)) :
    s2.bias_code = s.bias_code ∨ (0 ≤ s2.bias_code ∧ s2.bias_code ≤ 65535) := by
  unfold cmd_BIAS at h
  rcases hk : kv_get kv "CODE" with _ | v <;> rw [hk] at h <;> simp only [] at h
  · cases h; exact Or.inl rfl
  · rcases hv : pyInt v with _ | code <;> rw [hv] at h <;> simp only [] at h
    · cases h; exact Or.inl rfl
    · cases h
      refine Or.inr ⟨Int.emod_nonneg code (by norm_num), ?_⟩
      have := Int.emod_lt_of_pos code (show (0 : Int) < 65536 by norm_num)
      simp only [set_bias]
      omega

/-- Any dispatch outcome keeps `bias_code` either unchanged or in range. -/
theorem dispatch_bias (env : Env) (cmd : String) (kv : KV) (s s2 : DeviceState)
    (outs : List Output) (h : dispatch env cmd kv s = .ok (s2, outs)) :
    s2.bias_code = s.bias_code ∨ (0 ≤ s2.bias_code ∧ s2.bias_code ≤ 65535) := by
  unfold dispatch at h
  split_ifs at h
  · exact Or.inl (cmd_START_bias _ _ _ _ h)
  · exact Or.inl (cmd_LINE_bias _ _ _ _ _ h)
  · exact Or.inl (by rw [cmd_POINT_state _ _ _ _ _ h])
  · exact cmd_BIAS_bias _ _ _ _ h
  · unfold cmd_STATUS at h; simp_all
  · simp_all

/-- C10: an integer `BIAS CODE=c` always succeeds, storing `c mod 2^16`
(silent wrap, never rejected), which lies in `[0, 65535]`; and every
command line processed by `handle_line` preserves `bias_code ∈ [0, 65535]`. -/
theorem cmd_BIAS_wraps :
    (∀ (kv : KV) (s : DeviceState) (v : String) (code : Int),
       kv_get kv "CODE" = some v → pyInt v = some code →
       cmd_BIAS kv s = .ok ({ s with bias_code := code % 65536 }, [.ok "bias-set"]) ∧
       0 ≤ code % 65536 ∧ code % 65536 ≤ 65535) ∧
    (∀ (env : Env) (line : String) (s : DeviceState),
       0 ≤ s.bias_code → s.bias_code ≤ 65535 →
       0 ≤ (handle_line env line s).1.bias_code ∧
       (handle_line env line s).1.bias_code ≤ 65535) := by
  constructor
  · intro kv s v code hv hcode
    refine ⟨by simp only [cmd_BIAS, hv, hcode]; rfl, Int.emod_nonneg code (by norm_num), ?_⟩
    have := Int.emod_lt_of_pos code (show (0 : Int) < 65536 by norm_num)
    omega
  · intro env line s h0 h1
    unfold handle_line
    split
    · exact ⟨h0, h1⟩
    · split
      · rename_i r hr
        rcases r with ⟨s2, outs⟩
        rcases dispatch_bias _ _ _ _ _ _ hr with h | h
        · simp only [h]; exact ⟨h0, h1⟩
        · exact h
      · exact ⟨h0, h1⟩

/-- C10 witness: `BIAS CODE=-1` wraps to `65535`; a full `handle_line` call
keeps the invariant. -/
theorem cmd_BIAS_wraps_witness :
    (cmd_BIAS [("CODE", "-1")] initDevice =
       .ok ({ initDevice with bias_code := (-1 : Int) % 65536 }, [.ok "bias-set"]) ∧
     0 ≤ (-1 : Int) % 65536 ∧ (-1 : Int) % 65536 ≤ 65535) ∧
    (0 ≤ (handle_line env0 "BIAS CODE=70000" initDevice).1.bias_code ∧
     (handle_line env0 "BIAS CODE=70000" initDevice).1.bias_code ≤ 65535) :=
  ⟨cmd_BIAS_wraps.1 _ initDevice "-1" (-1) rfl rfl,
   cmd_BIAS_wraps.2 env0 "BIAS CODE=70000" initDevice (by norm_num [initDevice])
     (by norm_num [initDevice])⟩

/-! ### C9 — a fault inside a command becomes `ERR CODE=99`; the loop and
session stay live -/

/-- C9: if the dispatched command raises (`Except.error`), `handle_line`
replies `ERR CODE=99` with the fault description and returns with the
session state intact; the command loop then continues with the remaining
lines exactly as if the faulting line had only printed that error. -/
theorem handle_line_catches :
    (∀ (env : Env) (line : String) (s : DeviceState) (e : String)
       (p0 : String) (rest : List String),
       pySplitWs (pyStrip line) = p0 :: rest →
       dispatch env (pyUpper p0) (parse_kv rest) s = .error e →
       handle_line env line s = (s, [.err 99 ("exception: " ++ e)])) ∧
    (∀ (env : Env) (line : String) (ls : List String) (s : DeviceState) (e : String)
       (p0 : String) (rest : List String),
       pySplitWs (pyStrip line) = p0 :: rest →
       dispatch env (pyUpper p0) (parse_kv rest) s = .error e →
       run_lines env (line :: ls) s =
         ((run_lines env ls s).1,
          .err 99 ("exception: " ++ e) :: (run_lines env ls s).2)) := by
  have h1 : ∀ (env : Env) (line : String) (s : DeviceState) (e : String)
      (p0 : String) (rest : List String),
      pySplitWs (pyStrip line) = p0 :: rest →
      dispatch env (pyUpper p0) (parse_kv rest) s = .error e →
      handle_line env line s = (s, [.err 99 ("exception: " ++ e)]) := by
    intro env line s e p0 rest hsplit hdisp
    simp only [handle_line, hsplit, hdisp]
  refine ⟨h1, ?_⟩
  intro env line ls s e p0 rest hsplit hdisp
  show (let r := handle_line env line s
        let r2 := run_lines env ls r.1
        (r2.1, r.2 ++ r2.2)) = _
  rw [h1 env line s e p0 rest hsplit hdisp]
  simp

/-- C9 witness: `START N=abc` raises `ValueError` inside `cmd_START`; the
device replies `ERR CODE=99` and the following `STATUS` is still served
from the unchanged session. -/
theorem handle_line_catches_witness :
    handle_line env0 "START N=abc" initDevice =
      (initDevice, [.err 99 ("exception: " ++ "invalid literal for int() with base 10: abc")]) ∧
    run_lines env0 ["START N=abc", "STATUS"] initDevice =
      ((run_lines env0 ["STATUS"] initDevice).1,
       .err 99 ("exception: " ++ "invalid literal for int() with base 10: abc") ::
         (run_lines env0 ["STATUS"] initDevice).2) :=
  ⟨handle_line_catches.1 env0 "START N=abc" initDevice _ "START" ["N=abc"] rfl rfl,
   handle_line_catches.2 env0 "START N=abc" ["STATUS"] initDevice _ "START" ["N=abc"] rfl rfl⟩

/-! ### Drain bookkeeping for the consumer tick -/

/-- The drain loop keeps exactly the last line frame. -/
theorem drain_fst (frames : List Frame) : (drain frames).1 = lastLineFrame frames := by
  induction frames using List.reverseRecOn with
  | nil => rfl
  | append_singleton fs f ih =>
    cases f with
    | line y i d =>
      unfold drain lastLineFrame at *
      rw [List.foldl_append, List.filterMap_append]
      simp only [List.foldl_cons, List.foldl_nil, List.filterMap_cons, List.filterMap_nil,
        List.append_nil]
      rw [List.getLast?_concat]
    | point y =>
      unfold drain lastLineFrame at *
      rw [List.foldl_append, List.filterMap_append]
      simp only [List.foldl_cons, List.foldl_nil, List.filterMap_cons, List.filterMap_nil,
        List.append_nil]
      exact ih

/-- The drain loop keeps exactly the last point frame. -/
theorem drain_snd (frames : List Frame) : (drain frames).2 = lastPointFrame frames := by
  induction frames using List.reverseRecOn with
  | nil => rfl
  | append_singleton fs f ih =>
    cases f with
    | line y i d =>
      unfold drain lastPointFrame at *
      rw [List.foldl_append, List.filterMap_append]
      simp only [List.foldl_cons, List.foldl_nil, List.filterMap_cons, List.filterMap_nil,
        List.append_nil]
      exact ih
    | point y =>
      unfold drain lastPointFrame at *
      rw [List.foldl_append, List.filterMap_append]
      simp only [List.foldl_cons, List.foldl_nil, List.filterMap_cons, List.filterMap_nil,
        List.append_nil]
      rw [List.getLast?_concat]

theorem drain_eq (frames : List Frame) :
    drain frames = (lastLineFrame frames, lastPointFrame frames) := by
  rw [← drain_fst, ← drain_snd]

/-- No command hides among the topography-guard effects. -/
theorem sentCmds_topo (s : HostState) (y : List ℚ) (idx dir : Int) :
    sentCmds (topo_acts s y idx dir) = [] := by
  unfold topo_acts
  cases s.topo_size with
  | none => rfl
  | some n =>
    simp only []
    by_cases h : 0 ≤ idx ∧ idx < n
    · rw [if_pos h]; rfl
    · rw [if_neg h]; rfl

theorem sentCmds_append (a b : List HAct) :
    sentCmds (a ++ b) = sentCmds a ++ sentCmds b :=
  List.filterMap_append a b _

/-! ### C3 — the consumer requests `idx+1` or stops exactly at the end -/

/-- C3: in a tick whose last drained line frame has row `idx`, while
scanning: if `idx + 1 < linear_size` exactly one `LINE N=linear_size
IDX=idx+1` is enqueued and the scan stays on; otherwise (in particular at
`idx + 1 = linear_size`) the scan is toggled off and nothing is enqueued.
In no case is `LINE ... IDX=linear_size` ever requested. -/
theorem poll_device_next_or_stop (frames : List Frame) (s : HostState)
    (y : List ℚ) (idx dir : Int)
    (hscan : s.scanning = true)
    (hlast : lastLineFrame frames = some (y, idx, dir)) :
    sentCmds (poll_device frames s).2 =
      (if idx + 1 < s.linear_size then [Cmd.line s.linear_size (idx + 1)] else []) ∧
    (poll_device frames s).1.scanning = decide (idx + 1 < s.linear_size) ∧
    (∀ n : Int, Cmd.line n s.linear_size ∉ sentCmds (poll_device frames s).2) := by
  by_cases hlt : idx + 1 < s.linear_size
  · have hp : poll_device frames s =
        ({ s with direction := -s.direction, line_idx := idx + 1 },
         (topo_acts s y idx dir ++
            [.appendTS y, .setProgress (100 * ((idx : ℚ) + 1) / (s.linear_size : ℚ))]) ++
           [.send (.line s.linear_size (idx + 1))]) := by
      unfold poll_device
      rw [drain_eq, hlast]
      simp only [hscan, if_true]
      rw [if_pos hlt]
    rw [hp]
    have hsent : sentCmds ((topo_acts s y idx dir ++
        [.appendTS y, .setProgress (100 * ((idx : ℚ) + 1) / (s.linear_size : ℚ))]) ++
        [.send (.line s.linear_size (idx + 1))]) = [Cmd.line s.linear_size (idx + 1)] := by
      rw [sentCmds_append, sentCmds_append, sentCmds_topo]
      rfl
    rw [hsent]
    refine ⟨by rw [if_pos hlt], by simp [hlt, hscan], ?_⟩
    intro n hmem
    rw [List.mem_singleton] at hmem
    injection hmem with h1 h2
    omega
  · have htog : toggle_scan s = ({ s with scanning := false }, [.setProgress 0]) := by
      unfold toggle_scan
      rw [if_neg (by simp [hscan])]
    have hp : poll_device frames s =
        ({ s with scanning := false },
         (topo_acts s y idx dir ++
            [.appendTS y, .setProgress (100 * ((idx : ℚ) + 1) / (s.linear_size : ℚ))]) ++
           [.setProgress 0]) := by
      unfold poll_device
      rw [drain_eq, hlast]
      simp only [hscan, if_true]
      rw [if_neg hlt, htog]
    rw [hp]
    have hsent : sentCmds ((topo_acts s y idx dir ++
        [.appendTS y, .setProgress (100 * ((idx : ℚ) + 1) / (s.linear_size : ℚ))]) ++
        [.setProgress 0]) = [] := by
      rw [sentCmds_append, sentCmds_append, sentCmds_topo]
      rfl
    rw [hsent]
    exact ⟨by rw [if_neg hlt], by simp [hlt], by intro n; simp⟩

/-- C3 witness: a tick while scanning with `linear_size = 4` whose last line
frame has `idx = 2` requests exactly `LINE N=4 IDX=3`, keeps scanning, and
never requests `IDX = 4`. -/
theorem poll_device_next_or_stop_witness :
    sentCmds (poll_device [Frame.line [1] 2 (-1)]
        { scanning := true, line_idx := 2, direction := 1,
          linear_size := 4, topo_size := some 4 }).2 = [Cmd.line 4 3] ∧
    (poll_device [Frame.line [1] 2 (-1)]
        { scanning := true, line_idx := 2, direction := 1,
          linear_size := 4, topo_size := some 4 }).1.scanning = true ∧
    (∀ n : Int, Cmd.line n 4 ∉ sentCmds (poll_device [Frame.line [1] 2 (-1)]
        { scanning := true, line_idx := 2, direction := 1,
          linear_size := 4, topo_size := some 4 }).2) := by
  have h := poll_device_next_or_stop [Frame.line [1] 2 (-1)]
    { scanning := true, line_idx := 2, direction := 1, linear_size := 4, topo_size := some 4 }
    [1] 2 (-1) rfl rfl
  exact ⟨by simpa using h.1, by simpa using h.2.1, by simpa using h.2.2⟩

/-! ### C8 — full drain keeps only the freshest frame of each kind; a point
frame is dropped whenever a line frame arrived -/

/-- Whether a frame is a line frame. -/
def isLineFrame (f : Frame) : Bool :=
  match f with | .line _ _ _ => true | .point _ => false

/-- The two frames the drain loop retains, as a queue. -/
def compress (frames : List Frame) : List Frame :=
  (match lastLineFrame frames with
   | some (y, i, d) => [Frame.line y i d]
   | none => []) ++
  (match lastPointFrame frames with
   | some y => [Frame.point y]
   | none => [])

theorem drain_compress (frames : List Frame) : drain (compress frames) = drain frames := by
  rw [drain_eq frames]
  unfold compress
  cases hl : lastLineFrame frames with
  | none =>
    cases hp : lastPointFrame frames with
    | none => rfl
    | some y => rfl
  | some l =>
    rcases l with ⟨y, i, d⟩
    cases hp : lastPointFrame frames with
    | none => rfl
    | some p => rfl

theorem lastLine_filter (frames : List Frame) :
    lastLineFrame (frames.filter isLineFrame) = lastLineFrame frames := by
  unfold lastLineFrame
  congr 1
  induction frames with
  | nil => rfl
  | cons f t ih =>
    cases f with
    | line y i d => simp only [List.filter_cons, isLineFrame, if_true, List.filterMap_cons, ih]
    | point y => simpa only [List.filter_cons, isLineFrame, List.filterMap_cons] using ih

theorem lastPoint_filter (frames : List Frame) :
    lastPointFrame (frames.filter isLineFrame) = none := by
  unfold lastPointFrame
  rw [List.getLast?_eq_none_iff]
  induction frames with
  | nil => rfl
  | cons f t ih =>
    cases f with
    | line y i d => simpa only [List.filter_cons, isLineFrame, List.filterMap_cons] using ih
    | point y => simpa only [List.filter_cons, isLineFrame, List.filterMap_cons] using ih

/-- C8 (amended): each tick drains the whole queue but its outcome depends
only on the last line frame and last point frame (all intermediate frames
are superseded); when a line frame arrived this tick, point frames have no
effect at all — the tick behaves as if the queue held only its line frames —
and a point frame is acted on only in a line-free tick while not scanning. -/
theorem poll_device_keeps_last :
    (∀ (frames : List Frame) (s : HostState),
       poll_device frames s = poll_device (compress frames) s) ∧
    (∀ (frames : List Frame) (s : HostState),
       (lastLineFrame frames).isSome →
       poll_device frames s = poll_device (frames.filter isLineFrame) s) ∧
    (∀ (frames : List Frame) (s : HostState) (p : List ℚ),
       lastLineFrame frames = none → lastPointFrame frames = some p →
       poll_device frames s = if s.scanning then (s, []) else (s, [.appendTS p])) := by
  refine ⟨?_, ?_, ?_⟩
  · intro frames s
    unfold poll_device
    rw [drain_compress]
  · intro frames s hsome
    rcases Option.isSome_iff_exists.mp hsome with ⟨⟨y, i, d⟩, hl⟩
    unfold poll_device
    rw [drain_eq, drain_eq, hl, lastLine_filter, hl, lastPoint_filter]
  · intro frames s p hl hp
    unfold poll_device
    rw [drain_eq, hl, hp]
    cases hscan : s.scanning with
    | true => simp
    | false => simp

/-- C8 witness for the amended theorem at a concrete queue. -/
theorem poll_device_keeps_last_witness :
    (poll_device [Frame.point [1], Frame.line [3] 0 1]
        { scanning := false, line_idx := 0, direction := 1,
          linear_size := 4, topo_size := some 4 } =
     poll_device (compress [Frame.point [1], Frame.line [3] 0 1])
        { scanning := false, line_idx := 0, direction := 1,
          linear_size := 4, topo_size := some 4 }) ∧
    (poll_device [Frame.point [1], Frame.line [3] 0 1]
        { scanning := false, line_idx := 0, direction := 1,
          linear_size := 4, topo_size := some 4 } =
     poll_device ([Frame.point [1], Frame.line [3] 0 1].filter isLineFrame)
        { scanning := false, line_idx := 0, direction := 1,
          linear_size := 4, topo_size := some 4 }) ∧
    (poll_device [Frame.point [7]]
        { scanning := false, line_idx := 0, direction := 1,
          linear_size := 4, topo_size := some 4 } =
     ({ scanning := false, line_idx := 0, direction := 1,
        linear_size := 4, topo_size := some 4 }, [.appendTS [7]])) := by
  refine ⟨poll_device_keeps_last.1 _ _, poll_device_keeps_last.2.1 _ _ rfl, ?_⟩
  have h := poll_device_keeps_last.2.2 [Frame.point [7]]
    { scanning := false, line_idx := 0, direction := 1, linear_size := 4, topo_size := some 4 }
    [7] rfl rfl
  simpa using h

/-- C8 counterexample: with two point frames and one line frame in one
tick, the claim's "the tick processes … the most recent point frame" fails:
the superseded point frame `[1]` *and* the retained one `[2]` are both
dropped (no `append_time_series` call for either); only the line frame is
processed. -/
theorem poll_device_point_not_processed :
    lastPointFrame [Frame.point [1], Frame.point [2], Frame.line [3] 0 1] = some [2] ∧
    HAct.appendTS [2] ∉
      (poll_device [Frame.point [1], Frame.point [2], Frame.line [3] 0 1]
        { scanning := false, line_idx := 0, direction := 1,
          linear_size := 4, topo_size := some 4 }).2 ∧
    HAct.appendTS [3] ∈
      (poll_device [Frame.point [1], Frame.point [2], Frame.line [3] 0 1]
        { scanning := false, line_idx := 0, direction := 1,
          linear_size := 4, topo_size := some 4 }).2 := by
  refine ⟨rfl, ?_, ?_⟩
  · norm_num [poll_device, drain, topo_acts]
    exact ⟨by simp, by simp⟩
  · norm_num [poll_device, drain, topo_acts]

/-! ### C7 — total, tolerant host-side decoding -/

/-- A successful `mapOption` preserves the length. -/
theorem mapOption_length (f : α → Option β) :
    ∀ (l : List α) (l2 : List β), mapOption f l = some l2 → l2.length = l.length := by
  intro l
  induction l with
  | nil =>
    intro l2 h
    unfold mapOption at h
    cases h
    rfl
  | cons x xs ih =>
    intro l2 h
    unfold mapOption at h
    cases hf : f x with
    | none => rw [hf] at h; exact Option.noConfusion h
    | some y =>
      rw [hf] at h
      cases hm : mapOption f xs with
      | none => rw [hm] at h; exact Option.noConfusion h
      | some ys =>
        rw [hm] at h
        cases h
        simp [ih ys hm]

/-- C7 counterexample: the non-UTF8 byte line `b"\xff"` does *not* decode
to "no header": `errors="replace"` turns it into U+FFFD and `_parse_header`
classifies it as an `unknown` header, not `None`. -/
theorem parse_header_non_utf8_not_none :
    parse_header [0xFF] = some (.unknown (String.mk [Char.ofNat 0xFFFD])) ∧
    parse_header [0xFF] ≠ none := by
  refine ⟨rfl, ?_⟩
  rw [show parse_header [0xFF] = some (.unknown (String.mk [Char.ofNat 0xFFFD])) from rfl]
  simp

/-- C7 (amended): decoding is total.  `_parse_csv_floats`' result is
independent of the declared count (a mismatch is tolerated and the actual
parsed list is returned); a strict-decode failure or a non-numeric token
yields "no payload" without raising, and on success the result is exactly
the parsed value of each non-empty comma token.  `_parse_header` yields "no
header" for empty/whitespace-only lines, classifies any line whose first
token is none of `LINE`/`POINT`/`OK`/`ERR` as an `unknown` header (so
non-UTF8 bytes, decoded with replacement characters, yield `unknown`, not
`None` — the original claim's "non-UTF8 input yields None" is what fails). -/
theorem decoding_total_tolerant :
    (∀ (bs : List Nat) (e1 e2 : Option Int),
       parse_csv_floats bs e1 = parse_csv_floats bs e2) ∧
    (∀ (bs : List Nat) (e : Option Int), utf8DecodeStrict bs = none →
       parse_csv_floats bs e = none) ∧
    (∀ (bs : List Nat) (e : Option Int) (txt : String),
       utf8DecodeStrict bs = some txt →
       ∀ qs : List ℚ, mapOption pyFloat (csvTokens txt) = some qs →
       parse_csv_floats bs e = some qs ∧ qs.length = (csvTokens txt).length) ∧
    (∀ (bs : List Nat) (e : Option Int) (txt : String),
       utf8DecodeStrict bs = some txt →
       mapOption pyFloat (csvTokens txt) = none →
       parse_csv_floats bs e = none) ∧
    (∀ bs : List Nat, pySplitWs (pyStrip (utf8DecodeReplace bs)) = [] →
       parse_header bs = none) ∧
    (∀ (bs : List Nat) (p0 : String) (rest : List String),
       pySplitWs (pyStrip (utf8DecodeReplace bs)) = p0 :: rest →
       pyUpper p0 ∉ (["LINE", "POINT", "OK", "ERR"] : List String) →
       parse_header bs = some (.unknown (pyStrip (utf8DecodeReplace bs)))) := by
  refine ⟨fun bs e1 e2 => rfl, ?_, ?_, ?_, ?_, ?_⟩
  · intro bs e h
    unfold parse_csv_floats
    rw [h]
  · intro bs e txt h qs hm
    constructor
    · unfold parse_csv_floats
      rw [h]
      simp only []
      rw [hm]
    · exact mapOption_length pyFloat _ qs hm
  · intro bs e txt h hm
    unfold parse_csv_floats
    rw [h]
    simp only []
    rw [hm]
  · intro bs h
    unfold parse_header
    simp only []
    rw [h]
  · intro bs p0 rest hsplit hmem
    simp only [List.mem_cons, List.mem_singleton, not_or] at hmem
    obtain ⟨h1, h2, h3, h4, _⟩ := hmem
    unfold parse_header
    simp only []
    rw [hsplit]
    simp only []
    rw [if_neg h1, if_neg h2]
    unfold header_tail
    rw [if_neg h3, if_neg h4]

/-- C7 witness: concrete byte lines for each clause — `b"1,2"` parses to two
floats regardless of the declared count; `b"\xff"` fails strict decoding;
`b"a"` has a non-numeric token; `b""` has no header; `b"X"` is an unknown
header. -/
theorem decoding_total_tolerant_witness :
    parse_csv_floats [49, 44, 50] (some 128) = parse_csv_floats [49, 44, 50] none ∧
    parse_csv_floats [0xFF] (some 2) = none ∧
    (parse_csv_floats [49, 44, 50] (some 128) =
       some [pyFloatVal (1, 0, 0, 0), pyFloatVal (2, 0, 0, 0)] ∧
     ([pyFloatVal (1, 0, 0, 0), pyFloatVal (2, 0, 0, 0)] : List ℚ).length =
       (csvTokens "1,2").length) ∧
    parse_csv_floats [97] (some 1) = none ∧
    parse_header [] = none ∧
    parse_header [88] = some (.unknown "X") := by
  refine ⟨decoding_total_tolerant.1 [49, 44, 50] (some 128) none,
          decoding_total_tolerant.2.1 [0xFF] (some 2) rfl,
          decoding_total_tolerant.2.2.1 [49, 44, 50] (some 128) "1,2" rfl _ rfl,
          decoding_total_tolerant.2.2.2.1 [97] (some 1) "a" rfl rfl,
          decoding_total_tolerant.2.2.2.2.1 [] rfl,
          ?_⟩
  exact decoding_total_tolerant.2.2.2.2.2 [88] "X" [] rfl (by decide)

end STM
